import Mathlib

/-!
Shallow embedding of the token-graph engine of `src/DesignSystemVisualizer.tsx`
(design-token visualizer). The engine ingests a raw dataset of collections of
variables into a flat registry of tokens, derives a collection category and an
alias target per token, filters the registry, formats token values, and renders
a depth-capped dependency tree. JavaScript values that flow through the engine
are modelled by an explicit literal type `Lit`; JavaScript numbers are modelled
by rationals; a thrown `TypeError` is modelled by `Option.none` on the one
function that can throw (`formatValue`).
-/

namespace DSV

/-- A JavaScript literal value as it can appear in a mode's `value` field:
a number, a string, a boolean, a color record `{r,g,b,a}`, `null`, or some
other object carried with its JSON serialization (an object with none of the
fields `r`, `g`, `b`, `a`). -/
inductive Lit where
  | num (x : Rat)
  | str (s : String)
  | boolean (b : Bool)
  | colorV (r g b a : Rat)
  | nullV
  | obj (json : String)
deriving Repr, DecidableEq

/-- A mode's entry in `valuesByMode`: the raw JSON shape `{ value?, aliasOf? }`,
each field optional (`none` models an absent/undefined field). -/
structure ModeValue where
  value : Option Lit
  aliasOf : Option String
deriving Repr, DecidableEq

/-- A processed token as pushed into `processedVariables` by `fetchVariables`
(lines 36–43 of the source): name, resolved type, collection name, derived
collection category, the ordered mode map, and the extracted alias target. -/
structure Token where
  name : String
  type : String
  collection : String
  collectionType : String
  valuesByMode : List (String × ModeValue)
  aliasOf : Option String
deriving Repr, DecidableEq

/-- Raw variable record of the input dataset; `valuesByMode = none` models a
variable missing its `valuesByMode` field. -/
structure RawVariable where
  name : String
  resolvedType : String
  valuesByMode : Option (List (String × ModeValue))
deriving Repr, DecidableEq

/-- Raw collection of the input dataset. The field `vars` embeds the source's
`variables` array (`variables` is not a usable identifier in Lean 4). -/
structure RawCollection where
  name : String
  vars : List RawVariable
deriving Repr, DecidableEq

/-- Raw dataset; `collections = none` models a dataset missing its
`collections` field. -/
structure RawData where
  collections : Option (List RawCollection)
deriving Repr, DecidableEq

/-- Errors of ingestion. In the source both malformed shapes surface as a
thrown `TypeError` (`data.collections.forEach` on undefined, or
`Object.keys(variable.valuesByMode)` on undefined), caught by the caller. -/
inductive DataFormatError where
  | missingCollections
  | missingValuesByMode (varName : String)
deriving Repr, DecidableEq

/-- JavaScript truthiness of an optional string (`null`/absent and `""` are
falsy). -/
def strTruthy : Option String → Bool
  | none => false
  | some s => decide (s ≠ "")

/-- JavaScript truthiness of an optional literal (`undefined`, `null`, `0`,
`""` and `false` are falsy; objects are truthy). -/
def litTruthy : Option Lit → Bool
  | none => false
  | some (.num x) => decide (x ≠ 0)
  | some (.str s) => decide (s ≠ "")
  | some (.boolean b) => b
  | some (.colorV _ _ _ _) => true
  | some .nullV => false
  | some (.obj _) => true

/-- The collection-category rule of `fetchVariables` (lines 25–30):
`["Typography", "Color"].includes(name)` yields `"foundation"`,
`name === "Components"` yields `"component"`, else `"raw"`. -/
def categorize (name : String) : String :=
  if name = "Typography" ∨ name = "Color" then "foundation"
  else if name = "Components" then "component"
  else "raw"

/-- The alias extraction of line 42:
`modeValue && modeValue.aliasOf ? modeValue.aliasOf : null`, where
`modeValue` is the first mode's entry. -/
def deriveAliasOf (modes : List (String × ModeValue)) : Option String :=
  match modes.head?.map Prod.snd with
  | none => none
  | some mv =>
    match mv.aliasOf with
    | none => none
    | some s => if s = "" then none else some s

/-- Processing of one raw variable (lines 33–43): a missing `valuesByMode`
throws (`Object.keys` on undefined), otherwise the token record is built. -/
def processVariable (collName collType : String) (v : RawVariable) :
    Except DataFormatError Token :=
  match v.valuesByMode with
  | none => .error (.missingValuesByMode v.name)
  | some modes =>
    .ok { name := v.name, type := v.resolvedType, collection := collName,
          collectionType := collType, valuesByMode := modes,
          aliasOf := deriveAliasOf modes }

/-- The inner `forEach` over a collection's variables; a throw aborts the
whole load. -/
def processVariables (collName collType : String) :
    List RawVariable → Except DataFormatError (List Token)
  | [] => .ok []
  | v :: vs =>
    match processVariable collName collType v with
    | .error e => .error e
    | .ok t =>
      match processVariables collName collType vs with
      | .error e => .error e
      | .ok ts => .ok (t :: ts)

/-- The outer `forEach` over collections (lines 24–45), concatenating the
processed tokens in source order. -/
def processCollections : List RawCollection → Except DataFormatError (List Token)
  | [] => .ok []
  | c :: cs =>
    match processVariables c.name (categorize c.name) c.vars with
    | .error e => .error e
    | .ok ts =>
      match processCollections cs with
      | .error e => .error e
      | .ok rest => .ok (ts ++ rest)

/-- Ingestion (`fetchVariables`, lines 16–53, minus the network fetch): a
dataset without `collections` throws immediately; otherwise all collections
are processed in order. The result list is the registry installed by
`setVariables`, which runs only on success. -/
def fetchVariables (raw : RawData) : Except DataFormatError (List Token) :=
  match raw.collections with
  | none => .error .missingCollections
  | some cols => processCollections cols

/-- The effect of one load attempt on the current registry: on success the
registry is replaced wholesale (`setVariables(processedVariables)`); on error
the catch block leaves the previous registry in place. -/
def applyLoad (current : List Token) (raw : RawData) : List Token :=
  match fetchVariables raw with
  | .ok ts => ts
  | .error _ => current

/-- `p` starts the character list `s`. -/
def listStartsWith : List Char → List Char → Bool
  | [], _ => true
  | _ :: _, [] => false
  | a :: as, b :: bs => a == b && listStartsWith as bs

/-- `p` occurs as a contiguous run inside `s` (the semantics of JavaScript's
`String#includes`; the empty pattern occurs in every string). -/
def listContainsSub (s p : List Char) : Bool :=
  listStartsWith p s ||
    match s with
    | [] => false
    | _ :: rest => listContainsSub rest p

/-- JavaScript `String#includes`. -/
def jsIncludes (hay pat : String) : Bool :=
  listContainsSub hay.data pat.data

/-- JavaScript `String#toLowerCase`, character-wise. -/
def jsToLower (s : String) : String := ⟨s.data.map Char.toLower⟩

/-- The filter of `filteredVariables` (lines 59–71): case-insensitive
substring match on the name, and exact match or `"all"` wildcard on the
collection category and on the resolved type; the three predicates are
conjoined and `List.filter` preserves registry order. -/
def filteredVariables (vars : List Token)
    (searchTerm selectedCollection selectedType : String) : List Token :=
  vars.filter fun v =>
    jsIncludes (jsToLower v.name) (jsToLower searchTerm) &&
    (selectedCollection == "all" || v.collectionType == selectedCollection) &&
    (selectedType == "all" || v.type == selectedType)

/-- `findTokenDependencies` (lines 140–142): the tokens whose `aliasOf`
strictly equals the given name, in registry order. -/
def findTokenDependencies (vars : List Token) (tokenName : String) : List Token :=
  vars.filter fun v => v.aliasOf == some tokenName

/-- `isLeafNode` (lines 144–146). -/
def isLeafNode (vars : List Token) (token : Token) : Bool :=
  (findTokenDependencies vars token.name).length == 0

/-- `Math.round(c * 255)` computed exactly on the rational channel `c`:
round to nearest with half towards positive infinity, i.e. `⌊c·255 + 1/2⌋`,
evaluated as the integer floor division `(510·num + den) / (2·den)` (see
`round255_eq_floor`). -/
def round255 (c : Rat) : Int := (510 * c.num + (c.den : Int)) / (2 * (c.den : Int))

/-- Decimal digits of the proper fraction `r / den` (`r < den`), with enough
fuel for every terminating expansion a double can produce. -/
def fracDigits : Nat → Nat → Nat → String
  | 0, _, _ => ""
  | fuel + 1, r, den =>
    if r = 0 then ""
    else
      String.singleton (Char.ofNat (48 + r * 10 / den)) ++
        fracDigits fuel (r * 10 % den) den

/-- JavaScript number-to-string on the rationals this program produces:
integers print with no decimal point, other values print sign, integer part,
point and the terminating decimal expansion (every IEEE double that is not an
integer has one). -/
def jsNumToString (x : Rat) : String :=
  if x.den = 1 then toString x.num
  else
    (if x < 0 then "-" else "") ++ toString (x.num.natAbs / x.den) ++ "." ++
      fracDigits 1100 (x.num.natAbs % x.den) x.den

/-- `JSON.stringify` of a first-mode literal, as it reaches the display
(`JSON.stringify(undefined)` evaluates to `undefined`, which the callers
concatenate into the string `"undefined"`; string literals are assumed free
of characters that need escaping). -/
def jsonStringifyLit : Option Lit → String
  | none => "undefined"
  | some (.num x) => jsNumToString x
  | some (.str s) => "\"" ++ s ++ "\""
  | some (.boolean b) => if b then "true" else "false"
  | some (.colorV r g b a) =>
      "\x7b\"r\":" ++ jsNumToString r ++ ",\"g\":" ++ jsNumToString g ++
        ",\"b\":" ++ jsNumToString b ++ ",\"a\":" ++ jsNumToString a ++ "\x7d"
  | some .nullV => "null"
  | some (.obj json) => json

/-- `formatValue` (lines 78–93). `none` models the thrown `TypeError` of a
non-alias token with no first mode (`value` is undefined and `value.value` is
read). Accessing `.r`/`.g`/`.b`/`.a` on a truthy non-color value yields
`undefined`, whose arithmetic is `NaN`, so the color branch then produces
`"rgba(NaN, NaN, NaN, undefined)"`. -/
def formatValue (tkn : Token) : Option String :=
  let value? := tkn.valuesByMode.head?.map Prod.snd
  if strTruthy tkn.aliasOf then
    some ("→ " ++ tkn.aliasOf.getD "")
  else
    match value? with
    | none => none
    | some value =>
      if tkn.type = "COLOR" ∧ litTruthy value.value then
        match value.value with
        | some (.colorV r g b a) =>
          some ("rgba(" ++ toString (round255 r) ++ ", " ++
                toString (round255 g) ++ ", " ++
                toString (round255 b) ++ ", " ++ jsNumToString a ++ ")")
        | _ => some "rgba(NaN, NaN, NaN, undefined)"
      else
        match value.value with
        | some (.num x) => some (jsNumToString x)
        | some (.str s) => some s
        | some (.boolean b) => some (if b then "true" else "false")
        | v => some (jsonStringifyLit v)

/-- `getColorPreview` (lines 95–105): `none` models the returned `null`. The
guards return `null` for a non-COLOR type, an alias, a missing first mode, a
falsy literal, and a literal whose `typeof` is not `"object"`; a truthy
non-color object reaches the rgba computation and yields the NaN string. -/
def getColorPreview (tkn : Token) : Option String :=
  if tkn.type ≠ "COLOR" ∨ strTruthy tkn.aliasOf then none
  else
    match tkn.valuesByMode.head?.map Prod.snd with
    | none => none
    | some value =>
      match value.value with
      | some (.colorV r g b a) =>
        some ("rgba(" ++ toString (round255 r) ++ ", " ++
              toString (round255 g) ++ ", " ++
              toString (round255 b) ++ ", " ++ jsNumToString a ++ ")")
      | some (.obj _) =>
        some "rgba(NaN, NaN, NaN, undefined)"
      | _ => none

/-- The dependency tree rendered by `renderDependencyNode` (lines 199–273),
stripped of its markup: the node's token and its child subtrees. -/
inductive TreeNode where
  | mk (token : Token) (children : List TreeNode)
deriving Repr

/-- The token at a tree node. -/
def TreeNode.token : TreeNode → Token
  | .mk t _ => t

/-- The child subtrees of a tree node. -/
def TreeNode.children : TreeNode → List TreeNode
  | .mk _ cs => cs

/-- The recursion of `renderDependencyNode` (lines 200, 267–271): a node's
children are its dependents, each rendered at `level + 1`, emitted only when
the node has dependents and `level < 4`; otherwise the node is a leaf of the
tree. -/
def buildTree (vars : List Token) (token : Token) (level : Nat) : TreeNode :=
  let deps := findTokenDependencies vars token.name
  if h : deps.length > 0 ∧ level < 4 then
    .mk token (deps.map fun d => buildTree vars d (level + 1))
  else
    .mk token []
termination_by 4 - level
decreasing_by omega

mutual

/-- Length in edges of the longest root-to-leaf path of a tree. -/
def treeDepth : TreeNode → Nat
  | .mk _ cs => treeDepthList cs

/-- One more than the largest depth among a list of subtrees (`0` for the
empty list). -/
def treeDepthList : List TreeNode → Nat
  | [] => 0
  | c :: cs => max (treeDepth c + 1) (treeDepthList cs)

end

/-- The literal's JavaScript `typeof` is `"number"`, `"string"` or
`"boolean"`. -/
def litIsPrim : Lit → Bool
  | .num _ => true
  | .str _ => true
  | .boolean _ => true
  | _ => false

/-- The literal's JavaScript `typeof` is `"object"` (color records, generic
objects and `null`). -/
def litIsObject : Lit → Bool
  | .colorV _ _ _ _ => true
  | .nullV => true
  | .obj _ => true
  | _ => false

/-- The runtime-type dispatch asserted by the specification for the non-color
path of the formatter, written from its words: a numeric literal yields its
decimal string, a string literal yields itself, a boolean literal yields
`"true"`/`"false"`, and any other literal yields its JSON serialization. -/
def specRuntimeDispatch : Option Lit → String
  | some (.num x) => jsNumToString x
  | some (.str s) => s
  | some (.boolean b) => if b then "true" else "false"
  | v => jsonStringifyLit v

/-- A concrete raw dataset: a foundation color collection with one literal red
color variable, and a component collection with one variable aliasing it. -/
def rawSample : RawData :=
  { collections := some
      [ { name := "Color",
          vars := [ { name := "color/brand/primary", resolvedType := "COLOR",
                      valuesByMode :=
                        some [("m1", ⟨some (.colorV 1 0 0 1), none⟩)] } ] },
        { name := "Components",
          vars := [ { name := "button/bg", resolvedType := "COLOR",
                      valuesByMode :=
                        some [("m1", ⟨none, some "color/brand/primary"⟩)] } ] } ] }

/-- The first token `rawSample` ingests to: a literal red color. -/
def colorTok : Token :=
  { name := "color/brand/primary", type := "COLOR", collection := "Color",
    collectionType := "foundation",
    valuesByMode := [("m1", ⟨some (.colorV 1 0 0 1), none⟩)], aliasOf := none }

/-- The second token `rawSample` ingests to: an alias of `colorTok`. -/
def aliasTok : Token :=
  { name := "button/bg", type := "COLOR", collection := "Components",
    collectionType := "component",
    valuesByMode := [("m1", ⟨none, some "color/brand/primary"⟩)],
    aliasOf := some "color/brand/primary" }

/-- A token of an unrecognized resolved type whose first-mode literal is a
generic object. -/
def unknownTok : Token :=
  { name := "grid/base", type := "GRID", collection := "Other",
    collectionType := "raw",
    valuesByMode := [("m1", ⟨some (.obj "\x7b\"cols\":12\x7d"), none⟩)],
    aliasOf := none }

/-- A non-alias token with `resolvedType = "COLOR"` whose first-mode literal
is the number `5`: truthy, but not a color object. -/
def badColorTok : Token :=
  { name := "space/4", type := "COLOR", collection := "Spacing",
    collectionType := "raw",
    valuesByMode := [("m1", ⟨some (.num 5), none⟩)], aliasOf := none }

/-- A non-alias token with `resolvedType = "STRING"` whose first-mode literal
is the number `42`. -/
def strTypedNumTok : Token :=
  { name := "mismatch", type := "STRING", collection := "Other",
    collectionType := "raw",
    valuesByMode := [("m1", ⟨some (.num 42), none⟩)], aliasOf := none }

/-- A non-alias COLOR token with an empty mode map: `getColorPreview` returns
`null` on it while `formatValue` throws. -/
def emptyModesTok : Token :=
  { name := "empty", type := "COLOR", collection := "Color",
    collectionType := "foundation", valuesByMode := [], aliasOf := none }

/-- A raw dataset missing its `collections` field. -/
def badRaw : RawData := { collections := none }

/-! ### Supporting lemmas -/

/-- The empty pattern occurs in every string. -/
lemma listContainsSub_nil (s : List Char) : listContainsSub s [] = true := by
  rw [listContainsSub.eq_def]
  rfl

/-- `jsIncludes` always holds for the empty search term. -/
lemma jsIncludes_empty (hay : String) : jsIncludes hay (jsToLower "") = true :=
  listContainsSub_nil hay.data

/-- A derived alias target is never the empty string. -/
lemma deriveAliasOf_ne_empty (modes : List (String × ModeValue)) (s : String)
    (h : deriveAliasOf modes = some s) : s ≠ "" := by
  unfold deriveAliasOf at h
  split at h
  · cases h
  · split at h
    · cases h
    · split at h
      · cases h
      · injection h with h
        subst h
        assumption

/-- Every token produced by the inner ingestion loop carries the collection
name and category it was processed under, and a nonempty alias target if
any. -/
lemma processVariables_mem (collName collType : String) (vs : List RawVariable)
    (ts : List Token) (h : processVariables collName collType vs = .ok ts)
    (t : Token) (ht : t ∈ ts) :
    t.collectionType = collType ∧ t.collection = collName ∧
      ∀ s, t.aliasOf = some s → s ≠ "" := by
  induction vs generalizing ts with
  | nil =>
    simp only [processVariables] at h
    injection h with h
    subst h
    cases ht
  | cons v vs ih =>
    unfold processVariables at h
    cases hpv : processVariable collName collType v with
    | error e => rw [hpv] at h; cases h
    | ok t0 =>
      rw [hpv] at h
      cases hrest : processVariables collName collType vs with
      | error e => rw [hrest] at h; cases h
      | ok ts' =>
        rw [hrest] at h
        injection h with h
        subst h
        rcases List.mem_cons.mp ht with rfl | hmem
        · unfold processVariable at hpv
          cases hvm : v.valuesByMode with
          | none => rw [hvm] at hpv; cases hpv
          | some modes =>
            rw [hvm] at hpv
            injection hpv with hpv
            subst hpv
            exact ⟨rfl, rfl, fun s hs => deriveAliasOf_ne_empty modes s hs⟩
        · exact ih ts' hrest hmem

/-- Every ingested token's category is `categorize` of its collection name,
and its alias target, if any, is nonempty. -/
lemma processCollections_mem (cs : List RawCollection) (ts : List Token)
    (h : processCollections cs = .ok ts) (t : Token) (ht : t ∈ ts) :
    t.collectionType = categorize t.collection ∧
      ∀ s, t.aliasOf = some s → s ≠ "" := by
  induction cs generalizing ts with
  | nil =>
    simp only [processCollections] at h
    injection h with h
    subst h
    cases ht
  | cons c cs ih =>
    unfold processCollections at h
    cases hpv : processVariables c.name (categorize c.name) c.vars with
    | error e => rw [hpv] at h; cases h
    | ok ts1 =>
      rw [hpv] at h
      cases hrest : processCollections cs with
      | error e => rw [hrest] at h; cases h
      | ok ts2 =>
        rw [hrest] at h
        injection h with h
        subst h
        rcases List.mem_append.mp ht with h1 | h2
        · have hm := processVariables_mem c.name (categorize c.name) c.vars ts1 hpv t h1
          exact ⟨hm.1.trans (congrArg categorize hm.2.1).symm, hm.2.2⟩
        · exact ih ts2 hrest h2

/-- Registry-level version of the ingestion invariants. -/
lemma fetchVariables_mem (raw : RawData) (ts : List Token)
    (h : fetchVariables raw = .ok ts) (t : Token) (ht : t ∈ ts) :
    t.collectionType = categorize t.collection ∧
      ∀ s, t.aliasOf = some s → s ≠ "" := by
  unfold fetchVariables at h
  split at h
  · cases h
  · exact processCollections_mem _ ts h t ht

/-! ### Claims -/

/-- C1: for every registry and every token `t`, `isLeafNode t` holds iff no
token `u` of the registry has `aliasOf = some t.name`; equivalently, iff the
list of dependents of `t.name` (the registry-ordered filter by that equality)
is empty. -/
theorem leaf_invariant (vars : List Token) (t : Token) :
    (isLeafNode vars t = true ↔ ∀ u ∈ vars, u.aliasOf ≠ some t.name) ∧
    (isLeafNode vars t = true ↔ findTokenDependencies vars t.name = []) := by
  have h2 : isLeafNode vars t = true ↔ findTokenDependencies vars t.name = [] := by
    unfold isLeafNode
    simp [List.length_eq_zero]
  refine ⟨h2.trans ?_, h2⟩
  unfold findTokenDependencies
  rw [List.filter_eq_nil_iff]
  simp

/-- C3: the query with empty search term and both wildcards returns the
registry unchanged; any query result is a sublist of the registry (hence in
registry order); and a token is in the result exactly when it is in the
registry and satisfies all three predicates (case-insensitive substring
match, category equality or wildcard, type equality or wildcard)
conjunctively. -/
theorem filter_conjunction (vars : List Token) (st cat ty : String) :
    filteredVariables vars "" "all" "all" = vars ∧
    (filteredVariables vars st cat ty).Sublist vars ∧
    (∀ v, v ∈ filteredVariables vars st cat ty ↔
      v ∈ vars ∧ jsIncludes (jsToLower v.name) (jsToLower st) = true ∧
        (cat = "all" ∨ v.collectionType = cat) ∧
        (ty = "all" ∨ v.type = ty)) := by
  refine ⟨?_, List.filter_sublist _, ?_⟩
  · apply List.filter_eq_self.mpr
    intro v _
    simp [jsIncludes_empty]
  · intro v
    unfold filteredVariables
    rw [List.mem_filter]
    simp only [Bool.and_eq_true, Bool.or_eq_true, beq_iff_eq]
    tauto

/-- C2: every ingested token's `collectionType` is the deterministic
function of its `collectionName` given by the classification rule:
`"foundation"` for `"Typography"` or `"Color"`, `"component"` for
`"Components"`, `"raw"` otherwise. Ingestion being a pure function of the
raw dataset, re-ingesting identical input yields identical categories. -/
theorem classification_rule (raw : RawData) (ts : List Token) (t : Token)
    (hok : fetchVariables raw = Except.ok ts) (ht : t ∈ ts) :
    t.collectionType =
      if t.collection = "Typography" ∨ t.collection = "Color" then "foundation"
      else if t.collection = "Components" then "component"
      else "raw" :=
  (fetchVariables_mem raw ts hok t ht).1

/-- Witness for C2 on a concrete dataset: `rawSample` ingests successfully
and its second token, from the `"Components"` collection, is classified
`"component"`. -/
theorem classification_rule_witness :
    fetchVariables rawSample = Except.ok [colorTok, aliasTok] ∧
    aliasTok.collectionType =
      (if aliasTok.collection = "Typography" ∨ aliasTok.collection = "Color"
       then "foundation"
       else if aliasTok.collection = "Components" then "component"
       else "raw") :=
  ⟨rfl, classification_rule rawSample [colorTok, aliasTok] aliasTok rfl
    (by simp)⟩

/-- C8: for every token of an ingested registry whose alias target is set,
`formatValue` returns the reference indicator `"→ "` followed by the target
name, whatever the token's resolved type and first-mode value are (neither is
inspected on this path). -/
theorem alias_format (raw : RawData) (ts : List Token) (t : Token) (s : String)
    (hok : fetchVariables raw = Except.ok ts) (ht : t ∈ ts)
    (h : t.aliasOf = some s) :
    formatValue t = some ("→ " ++ s) := by
  have hne : s ≠ "" := (fetchVariables_mem raw ts hok t ht).2 s h
  have htr : strTruthy t.aliasOf = true := by simp [strTruthy, h, hne]
  unfold formatValue
  rw [if_pos htr]
  simp [h]

/-- Witness for C8: the alias token of `rawSample` formats to the indicator
string followed by `"color/brand/primary"`. -/
theorem alias_format_witness :
    formatValue aliasTok = some "→ color/brand/primary" :=
  (alias_format rawSample [colorTok, aliasTok] aliasTok "color/brand/primary"
    rfl (by simp) rfl).trans (by decide)

/-- A variable without `valuesByMode` anywhere in the list makes the inner
loop fail. -/
lemma processVariables_error_of_missing (collName collType : String)
    (vs : List RawVariable) (v : RawVariable) (hv : v ∈ vs)
    (hm : v.valuesByMode = none) :
    ∃ e, processVariables collName collType vs = .error e := by
  induction vs with
  | nil => cases hv
  | cons w ws ih =>
    rcases List.mem_cons.mp hv with rfl | hv'
    · refine ⟨.missingValuesByMode v.name, ?_⟩
      unfold processVariables processVariable
      rw [hm]
    · unfold processVariables
      cases hpw : processVariable collName collType w with
      | error e => exact ⟨e, rfl⟩
      | ok t =>
        obtain ⟨e, he⟩ := ih hv'
        rw [he]
        exact ⟨e, rfl⟩

/-- A failing collection anywhere in the list makes the outer loop fail. -/
lemma processCollections_error_of_missing (cols : List RawCollection)
    (c : RawCollection) (hc : c ∈ cols)
    (he : ∃ e, processVariables c.name (categorize c.name) c.vars = .error e) :
    ∃ e, processCollections cols = .error e := by
  induction cols with
  | nil => cases hc
  | cons d ds ih =>
    rcases List.mem_cons.mp hc with rfl | hc'
    · obtain ⟨e, he⟩ := he
      unfold processCollections
      rw [he]
      exact ⟨e, rfl⟩
    · unfold processCollections
      cases hpd : processVariables d.name (categorize d.name) d.vars with
      | error e => exact ⟨e, rfl⟩
      | ok ts =>
        obtain ⟨e, he'⟩ := ih hc'
        rw [he']
        exact ⟨e, rfl⟩

/-- C6: a dataset missing `collections` fails with `missingCollections`; a
dataset containing a variable missing `valuesByMode` fails with some
`DataFormatError`; and a failed load leaves the previous registry in place
while a successful one replaces it wholesale. -/
theorem ingest_error_handling (raw : RawData) (cur : List Token) :
    (raw.collections = none →
      fetchVariables raw = .error .missingCollections) ∧
    (∀ cols c v, raw.collections = some cols → c ∈ cols → v ∈ c.vars →
      v.valuesByMode = none → ∃ e, fetchVariables raw = .error e) ∧
    (∀ e, fetchVariables raw = .error e → applyLoad cur raw = cur) ∧
    (∀ ts, fetchVariables raw = .ok ts → applyLoad cur raw = ts) := by
  refine ⟨?_, ?_, ?_, ?_⟩
  · intro h
    unfold fetchVariables
    rw [h]
  · intro cols c v hcols hc hv hm
    obtain ⟨e, he⟩ := processCollections_error_of_missing cols c hc
      (processVariables_error_of_missing c.name (categorize c.name) c.vars v hv hm)
    refine ⟨e, ?_⟩
    unfold fetchVariables
    rw [hcols]
    exact he
  · intro e he
    unfold applyLoad
    rw [he]
  · intro ts hts
    unfold applyLoad
    rw [hts]

/-- Witness for C6: the collectionless dataset `badRaw` fails and leaves a
previous one-token registry untouched. -/
theorem ingest_error_handling_witness :
    fetchVariables badRaw = .error .missingCollections ∧
    applyLoad [colorTok] badRaw = [colorTok] :=
  ⟨(ingest_error_handling badRaw [colorTok]).1 rfl,
   (ingest_error_handling badRaw [colorTok]).2.2.1 .missingCollections
     ((ingest_error_handling badRaw [colorTok]).1 rfl)⟩

/-- A list of subtrees of depth at most `k` has list-depth at most
`k + 1`. -/
lemma treeDepthList_le (cs : List TreeNode) (k : Nat)
    (h : ∀ c ∈ cs, treeDepth c ≤ k) : treeDepthList cs ≤ k + 1 := by
  induction cs with
  | nil => simp [treeDepthList]
  | cons c cs ih =>
    rw [treeDepthList]
    have h1 : treeDepth c ≤ k := h c (by simp)
    have h2 : treeDepthList cs ≤ k + 1 := ih fun d hd => h d (by simp [hd])
    omega

/-- A subtree built at `level` has depth at most `4 - level`; the fuel
argument drives the induction. -/
lemma buildTree_depth_le (vars : List Token) :
    ∀ fuel level t, 4 - level ≤ fuel →
      treeDepth (buildTree vars t level) ≤ 4 - level := by
  intro fuel
  induction fuel with
  | zero =>
    intro level t h
    rw [buildTree]
    rw [dif_neg fun hc => by omega]
    simp [treeDepth, treeDepthList]
  | succ n ih =>
    intro level t h
    rw [buildTree]
    by_cases hc : (findTokenDependencies vars t.name).length > 0 ∧ level < 4
    · rw [dif_pos hc]
      rw [treeDepth]
      have hch : ∀ c ∈ (findTokenDependencies vars t.name).map
          (fun d => buildTree vars d (level + 1)), treeDepth c ≤ 4 - (level + 1) := by
        intro c hcmem
        obtain ⟨d, _, rfl⟩ := List.mem_map.mp hcmem
        exact ih (level + 1) d (by omega)
      have := treeDepthList_le _ _ hch
      omega
    · rw [dif_neg hc]
      simp [treeDepth, treeDepthList]

/-- C4: the dependency tree rooted at any token of any registry — cyclic
alias relations included — has no path longer than 4 edges from the root;
a node reaching the depth cap gets no children regardless of its dependents;
and the root node carries the chosen token. Totality of `buildTree` itself
is its termination proof (the recursion is well-founded on `4 - level`). -/
theorem tree_depth_bound (vars : List Token) (t : Token) :
    treeDepth (buildTree vars t 0) ≤ 4 ∧
    (buildTree vars t 4).children = [] ∧
    (buildTree vars t 0).token = t := by
  refine ⟨?_, ?_, ?_⟩
  · simpa using buildTree_depth_le vars 4 0 t (by omega)
  · rw [buildTree]
    rw [dif_neg fun hc => by omega]
    rfl
  · rw [buildTree]
    split <;> rfl

/-- The integer floor division of `round255` computes `⌊c·255 + 1/2⌋`. -/
lemma round255_eq_floor (c : Rat) : round255 c = ⌊c * 255 + 1 / 2⌋ := by
  have hden : ((2 * c.den : ℕ) : ℚ) ≠ 0 := by
    rw [Nat.cast_ne_zero]
    exact Nat.mul_ne_zero two_ne_zero c.den_nz
  have hc : c * (c.den : ℚ) = (c.num : ℚ) := by
    calc c * (c.den : ℚ) = ((c.num : ℚ) / (c.den : ℚ)) * (c.den : ℚ) := by
          rw [Rat.num_div_den]
      _ = (c.num : ℚ) := div_mul_cancel₀ _ (Nat.cast_ne_zero.mpr c.den_nz)
  have hq : c * 255 + 1 / 2 =
      ((510 * c.num + (c.den : ℤ) : ℤ) : ℚ) / ((2 * c.den : ℕ) : ℚ) := by
    rw [eq_div_iff hden]
    push_cast
    rw [← hc]
    ring
  rw [hq, Rat.floor_intCast_div_natCast]
  unfold round255
  push_cast
  rfl

/-- C5: `formatValue` is total (returns a string, never throws) on every
well-formed token, i.e. every token with at least one mode; `buildTree` and
`filteredVariables` are total functions of the registry (the built root
carries its token; any filter result is a sublist of the registry); and an
unrecognized resolved type never throws — a non-primitive literal under a
non-`"COLOR"` type degrades to its generic JSON serialization. -/
theorem downstream_total (vars : List Token) (t : Token) (st cat ty : String)
    (hm : t.valuesByMode ≠ []) :
    (∃ s, formatValue t = some s) ∧
    (buildTree vars t 0).token = t ∧
    (filteredVariables vars st cat ty).Sublist vars ∧
    (∀ mv l, t.aliasOf = none → t.type ≠ "COLOR" →
      t.valuesByMode.head?.map Prod.snd = some mv → mv.value = some l →
      litIsPrim l = false →
      formatValue t = some (jsonStringifyLit (some l))) := by
  refine ⟨?_, ?_, List.filter_sublist _, ?_⟩
  · unfold formatValue
    by_cases ha : strTruthy t.aliasOf = true
    · rw [if_pos ha]
      exact ⟨_, rfl⟩
    · rw [if_neg ha]
      cases hh : t.valuesByMode.head?.map Prod.snd with
      | none =>
        exfalso
        apply hm
        cases hvm : t.valuesByMode with
        | nil => rfl
        | cons p rest => rw [hvm] at hh; simp at hh
      | some value =>
        simp only [hh]
        by_cases hc : t.type = "COLOR" ∧ litTruthy value.value = true
        · rw [if_pos hc]
          cases hv : value.value with
          | none => exact ⟨_, rfl⟩
          | some l => cases l <;> exact ⟨_, rfl⟩
        · rw [if_neg hc]
          cases hv : value.value with
          | none => exact ⟨_, rfl⟩
          | some l => cases l <;> exact ⟨_, rfl⟩
  · rw [buildTree]
    split <;> rfl
  · intro mv l hal hty hmv hl hp
    have ha : ¬ strTruthy t.aliasOf = true := by simp [strTruthy, hal]
    unfold formatValue
    rw [if_neg ha]
    simp only [hmv]
    rw [if_neg (fun hc => hty hc.1)]
    simp only [hl]
    cases l with
    | num x => simp [litIsPrim] at hp
    | str s => simp [litIsPrim] at hp
    | boolean b => simp [litIsPrim] at hp
    | colorV r g b a => rfl
    | nullV => rfl
    | obj j => rfl

/-- Witness for C5 on the concrete token `unknownTok` of unrecognized type
`"GRID"` with a generic object literal. -/
theorem downstream_total_witness :
    unknownTok.valuesByMode ≠ [] ∧
    ((∃ s, formatValue unknownTok = some s) ∧
     (buildTree [] unknownTok 0).token = unknownTok ∧
     (filteredVariables [] "g" "all" "all").Sublist [] ∧
     (∀ mv l, unknownTok.aliasOf = none → unknownTok.type ≠ "COLOR" →
       unknownTok.valuesByMode.head?.map Prod.snd = some mv →
       mv.value = some l → litIsPrim l = false →
       formatValue unknownTok = some (jsonStringifyLit (some l)))) :=
  ⟨by decide, downstream_total [] unknownTok "g" "all" "all" (by decide)⟩

/-- C7: a non-alias `"COLOR"` token whose first-mode literal is a color
record with channels in `[0, 1]` formats to `rgba(R, G, B, a)` where each of
`R`, `G`, `B` is the channel scaled by 255 and rounded to the nearest integer
(`⌊x·255 + 1/2⌋`, halves up as `Math.round`) and the alpha channel is passed
through unrounded. -/
theorem color_format (t : Token) (mv : ModeValue) (r g b a : Rat)
    (h1 : t.aliasOf = none) (h2 : t.type = "COLOR")
    (h3 : t.valuesByMode.head?.map Prod.snd = some mv)
    (h4 : mv.value = some (.colorV r g b a))
    (h5 : 0 ≤ r ∧ r ≤ 1 ∧ 0 ≤ g ∧ g ≤ 1 ∧ 0 ≤ b ∧ b ≤ 1 ∧ 0 ≤ a ∧ a ≤ 1) :
    formatValue t = some ("rgba(" ++ toString ⌊r * 255 + 1 / 2⌋ ++ ", " ++
      toString ⌊g * 255 + 1 / 2⌋ ++ ", " ++ toString ⌊b * 255 + 1 / 2⌋ ++
      ", " ++ jsNumToString a ++ ")") := by
  have ha : ¬ strTruthy t.aliasOf = true := by simp [strTruthy, h1]
  have hl : litTruthy mv.value = true := by rw [h4]; rfl
  unfold formatValue
  rw [if_neg ha]
  simp only [h3]
  rw [if_pos ⟨h2, hl⟩]
  simp only [h4]
  rw [round255_eq_floor r, round255_eq_floor g, round255_eq_floor b]

/-- Witness for C7: the red literal `{r:1, g:0, b:0, a:1}` formats to
`"rgba(255, 0, 0, 1)"`. -/
theorem color_format_witness :
    formatValue colorTok = some "rgba(255, 0, 0, 1)" := by
  have h := color_format colorTok ⟨some (.colorV 1 0 0 1), none⟩ 1 0 0 1
    rfl rfl rfl rfl (by norm_num)
  rw [h]
  norm_num
  decide

/-- C9, counterexample: `badColorTok` is a non-alias token whose first-mode
literal is the number `5` — not a color object — yet, because its resolved
type is `"COLOR"` and the literal is truthy, the formatter takes the color
branch and yields `"rgba(NaN, NaN, NaN, undefined)"` instead of the
runtime-type dispatch result `"5"` the claim predicts. -/
theorem runtime_dispatch_counterexample :
    badColorTok.aliasOf = none ∧
    badColorTok.valuesByMode.head?.map Prod.snd =
      some ⟨some (.num 5), none⟩ ∧
    litIsObject (.num 5) = false ∧
    specRuntimeDispatch (some (.num 5)) = "5" ∧
    formatValue badColorTok = some "rgba(NaN, NaN, NaN, undefined)" ∧
    formatValue badColorTok ≠ some (specRuntimeDispatch (some (.num 5))) :=
  ⟨rfl, rfl, rfl, by decide, by decide, by decide⟩

/-- C9, amended: for every non-alias token with a first mode, when the color
branch is not taken — the resolved type is not `"COLOR"` or the first-mode
literal is falsy — the formatter dispatches on the runtime type of the
literal, whatever the resolved type says: a numeric literal yields its
decimal string, a string literal itself, a boolean literal
`"true"`/`"false"`, and any other literal its JSON serialization. -/
theorem runtime_dispatch_amended (t : Token) (mv : ModeValue)
    (h1 : strTruthy t.aliasOf = false)
    (h2 : t.valuesByMode.head?.map Prod.snd = some mv)
    (h3 : ¬(t.type = "COLOR" ∧ litTruthy mv.value = true)) :
    formatValue t = some (specRuntimeDispatch mv.value) := by
  unfold formatValue
  rw [if_neg (by simp [h1])]
  simp only [h2]
  rw [if_neg h3]
  cases hv : mv.value with
  | none => rfl
  | some l => cases l <;> rfl

/-- Witness for the amended C9: a token whose resolved type says `"STRING"`
but whose literal is the number `42` formats to `"42"`. -/
theorem runtime_dispatch_amended_witness :
    formatValue strTypedNumTok = some "42" :=
  (runtime_dispatch_amended strTypedNumTok ⟨some (.num 42), none⟩ rfl rfl
    (by decide)).trans (by decide)

/-- C10: `getColorPreview` returns `none` whenever the resolved type is not
`"COLOR"`, the token is an alias, the first mode is absent, the first mode
carries no literal value, or the literal is not an object — and, being a
total function into `Option`, it does so without throwing even on tokens
where `formatValue` throws (a non-alias token with no modes). -/
theorem color_preview_guard (t : Token)
    (h : t.type ≠ "COLOR" ∨ strTruthy t.aliasOf = true ∨
         t.valuesByMode.head? = none ∨
         (∃ mv, t.valuesByMode.head?.map Prod.snd = some mv ∧
           (mv.value = none ∨ ∃ l, mv.value = some l ∧ litIsObject l = false))) :
    getColorPreview t = none ∧
    (t.valuesByMode = [] → strTruthy t.aliasOf = false →
      formatValue t = none) := by
  constructor
  · unfold getColorPreview
    by_cases hg : t.type ≠ "COLOR" ∨ strTruthy t.aliasOf = true
    · rw [if_pos hg]
    · rw [if_neg hg]
      rcases h with h | h | h | ⟨mv, hmv, hv⟩
      · exact absurd (Or.inl h) hg
      · exact absurd (Or.inr h) hg
      · have hmn : t.valuesByMode.head?.map Prod.snd = none := by rw [h]; rfl
        simp only [hmn]
      · simp only [hmv]
        rcases hv with hv | ⟨l, hl, hlo⟩
        · simp only [hv]
        · simp only [hl]
          cases l <;> simp_all [litIsObject]
  · intro h1 h2
    unfold formatValue
    rw [if_neg (by simp [h2])]
    rw [h1]
    rfl

/-- Witness for C10: on the modeless COLOR token, the swatch helper returns
`none` while the formatter throws. -/
theorem color_preview_guard_witness :
    getColorPreview emptyModesTok = none ∧
    (emptyModesTok.valuesByMode = [] → strTruthy emptyModesTok.aliasOf = false →
      formatValue emptyModesTok = none) :=
  color_preview_guard emptyModesTok (Or.inr (Or.inr (Or.inl rfl)))

end DSV
